import Mathlib

/-!
Shallow embedding of the `go_cache` repository: a read-through transparent
cache (`TransparentCache`) in front of a `PriceService` collaborator.

Modelling conventions:
* `time.Now().UnixNano()` is an explicit `now : Int` parameter (nanoseconds);
  each call receives the current instant instead of reading a clock.
* `float64` prices carry no arithmetic in the source, so they are modelled as
  `Int` values stored and returned unchanged.
* The Go map `map[string]ItemPriceCache` is an association list `Store` with
  executable `find` / `insert` / `erase`.
* The collaborator `PriceService.GetPriceFor` is an oracle
  `svc : String -> Except String Int` (errors are their message strings).
* Goroutine/channel concurrency in `GetPricesFor` is modelled by per-goroutine
  event traces (sends on `ch` / `errCh`) merged by an explicit `schedule`
  listing which goroutine's next pending send the coordinator receives; an
  exhausted schedule with the coordinator still looping is a deadlock.
  Racy goroutine reads of the shared map are modelled by giving each goroutine
  an arbitrary store snapshot.
-/

/-- `ItemPriceCache` from cache.go: a cached price with its expiration
instant (UnixNano). -/
structure ItemPriceCache where
  Price : Int
  Expiration : Int
deriving Repr, DecidableEq

/-- `IsExpired` from cache.go line 31: `time.Now().UnixNano() > item.Expiration`. -/
def ItemPriceCache.IsExpired (item : ItemPriceCache) (now : Int) : Bool :=
  now > item.Expiration

/-- `planExpiration` from cache.go line 36: `time.Now().Add(duration).UnixNano()`,
i.e. the current instant plus the duration in nanoseconds. -/
def planExpiration (now duration : Int) : Int :=
  now + duration

/-- The `prices map[string]ItemPriceCache` field, as an association list. -/
abbrev Store := List (String × ItemPriceCache)

/-- Go map read `c.prices[itemCode]` (with the `ok` flag folded into `Option`). -/
def Store.find : Store → String → Option ItemPriceCache
  | [], _ => none
  | (k', v) :: rest, k => if k' = k then some v else Store.find rest k

/-- Go map write `c.prices[itemCode] = entry`: replaces the binding if the key
is present, otherwise adds it. -/
def Store.insert : Store → String → ItemPriceCache → Store
  | [], k, v => [(k, v)]
  | (k', v') :: rest, k, v =>
    if k' = k then (k, v) :: rest else (k', v') :: Store.insert rest k v

/-- Go map delete `delete(c.prices, itemCode)` (used only by the part_000
variant of `GetPriceFor`). -/
def Store.erase (s : Store) (k : String) : Store :=
  s.filter (fun p => p.1 ≠ k)

/-- The error wrapping of cache.go line 60:
`fmt.Errorf("getting item from service : %v", err.Error())`. -/
def wrapServiceError (e : String) : String :=
  "getting item from service : " ++ e

/-- Substring test: does `needle` occur inside `hay`? Executable form used to
inspect wrapped error messages. -/
def strContains (hay needle : String) : Bool :=
  hay.data.tails.any (fun t => needle.data.isPrefixOf t)

/-- Result of one `GetPriceFor` call: the returned `(float64, error)` pair,
the store after the call, and whether the collaborator was invoked. -/
structure GetPriceResult where
  value : Int
  error : Option String
  store : Store
  serviceCalled : Bool
deriving Repr, DecidableEq

/-- `GetPriceFor` from cache.go lines 49-69: serve from the store when the
entry is present and not expired; otherwise fetch from the collaborator,
returning `(0, wrapped error)` on failure and storing
`{price, planExpiration(maxAge)}` on success. -/
def GetPriceFor (svc : String → Except String Int) (maxAge : Int)
    (store : Store) (itemCode : String) (now : Int) : GetPriceResult :=
  match Store.find store itemCode with
  | some item =>
    if item.IsExpired now then
      match svc itemCode with
      | .error e => ⟨0, some (wrapServiceError e), store, true⟩
      | .ok price =>
        ⟨price, none,
          Store.insert store itemCode ⟨price, planExpiration now maxAge⟩, true⟩
    else
      ⟨item.Price, none, store, false⟩
  | none =>
    match svc itemCode with
    | .error e => ⟨0, some (wrapServiceError e), store, true⟩
    | .ok price =>
      ⟨price, none,
        Store.insert store itemCode ⟨price, planExpiration now maxAge⟩, true⟩

/-- `true` when `GetPriceFor` would go to the collaborator: the key is absent
from the store or its entry is expired. -/
def cacheMiss (store : Store) (code : String) (now : Int) : Bool :=
  match Store.find store code with
  | none => true
  | some item => item.IsExpired now

namespace Part000

/-- `GetPriceFor` from src/unnamed/part_000 lines 49-73: same as cache.go's,
except an expired entry is explicitly deleted from the store before the
refetch (`delete(c.prices, itemCode)`). -/
def GetPriceFor (svc : String → Except String Int) (maxAge : Int)
    (store : Store) (itemCode : String) (now : Int) : GetPriceResult :=
  match Store.find store itemCode with
  | some item =>
    if item.IsExpired now then
      let store1 := Store.erase store itemCode
      match svc itemCode with
      | .error e => ⟨0, some (wrapServiceError e), store1, true⟩
      | .ok price =>
        ⟨price, none,
          Store.insert store1 itemCode ⟨price, planExpiration now maxAge⟩, true⟩
    else
      ⟨item.Price, none, store, false⟩
  | none =>
    match svc itemCode with
    | .error e => ⟨0, some (wrapServiceError e), store, true⟩
    | .ok price =>
      ⟨price, none,
        Store.insert store itemCode ⟨price, planExpiration now maxAge⟩, true⟩

end Part000

/-! ## Batch retrieval: `GetPricesFor` (cache.go lines 73-138)

Each item code spawns one goroutine (cache.go lines 87-114).  A goroutine's
observable behaviour is its sequence of channel sends:

* cache hit (found and fresh in its snapshot of the racy shared map):
  one send `ch <- {code, item.Price}`;
* fetch succeeds: one send `ch <- {code, price}`;
* fetch fails: `errCh <- err` and then — because the goroutine does NOT
  return after the error send — `ch <- {code, price}` with the zero price.

The coordinator loop (lines 116-137) receives one send at a time: an `errCh`
send makes it return `(nil, err)` immediately; a `ch` send appends the price
to `results` in arrival order, writes `{price, planExpiration(maxAge)}` under
the code, and returns `(results, nil)` once `len(results) == len(itemCodes)`.
Both channels are closed by `defer` when the coordinator returns, so any send
still pending at that point is a send on a closed channel (a Go panic). -/

/-- One channel send of a batch goroutine: a result on `ch` or an error on
`errCh`. -/
inductive BatchEvent where
  | ok (code : String) (price : Int)
  | err (e : String)
deriving Repr, DecidableEq

/-- The sequence of sends of the goroutine for `code` (cache.go lines 88-112),
reading the shared map in state `snapshot`. On fetch failure the goroutine
sends the error and then still sends the zero price on `ch`. -/
def goroutineTrace (svc : String → Except String Int) (snapshot : Store)
    (code : String) (now : Int) : List BatchEvent :=
  match Store.find snapshot code with
  | some item =>
    if item.IsExpired now then
      match svc code with
      | .ok price => [.ok code price]
      | .error e => [.err e, .ok code 0]
    else
      [.ok code item.Price]
  | none =>
    match svc code with
    | .ok price => [.ok code price]
    | .error e => [.err e, .ok code 0]

/-- Outcome of one `GetPricesFor` call: the returned `([]float64, error)`
pair, the final store, and the sends each goroutine had not yet delivered
when the coordinator stopped receiving. -/
inductive BatchResult where
  | ok (values : List Int) (store : Store) (pending : List (List BatchEvent))
  | error (e : String) (store : Store) (pending : List (List BatchEvent))
  | deadlock (store : Store) (pending : List (List BatchEvent))
deriving Repr, DecidableEq

/-- The store when the call ended (returned or blocked). -/
def BatchResult.finalStore : BatchResult → Store
  | .ok _ s _ => s
  | .error _ s _ => s
  | .deadlock s _ => s

/-- `true` exactly on the success outcome `(values, nil)`. -/
def BatchResult.isOk : BatchResult → Bool
  | .ok _ _ _ => true
  | _ => false

/-- `true` when the coordinator returned (running `defer close(ch)` /
`defer close(errCh)`) while some goroutine still had a send to deliver:
that send is a send on a closed channel, which panics in Go. -/
def BatchResult.sendOnClosedChannel : BatchResult → Bool
  | .ok _ _ pending => pending.any (fun t => ¬ t.isEmpty)
  | .error _ _ pending => pending.any (fun t => ¬ t.isEmpty)
  | .deadlock _ _ => false

/-- The coordinator loop of cache.go lines 116-137. `traces` holds each
goroutine's still-undelivered sends; `schedule` lists, in order, which
goroutine's next send the `select` receives (entries naming a finished or
nonexistent goroutine deliver nothing and are skipped). An error send returns
`(nil, err)` at once; a result send appends the price in arrival order,
stores `{price, planExpiration(maxAge)}` under the code, and returns success
when `results` reaches `n = len(itemCodes)`. An exhausted schedule leaves the
coordinator blocked in `select`: deadlock. -/
def runBatch (n : Nat) (maxAge now : Int) :
    List (List BatchEvent) → List Nat → List Int → Store → BatchResult
  | traces, [], _, store => .deadlock store traces
  | traces, i :: rest, results, store =>
    match traces[i]? with
    | none => runBatch n maxAge now traces rest results store
    | some [] => runBatch n maxAge now traces rest results store
    | some (ev :: tr) =>
      let traces1 := traces.set i tr
      match ev with
      | .err e => .error e store traces1
      | .ok code price =>
        let results1 := results ++ [price]
        let store1 := Store.insert store code ⟨price, planExpiration now maxAge⟩
        if results1.length = n then .ok results1 store1 traces1
        else runBatch n maxAge now traces1 rest results1 store1

/-- The traces of the goroutines spawned by the loop of cache.go lines
87-114: one per item code, goroutine `i` reading the racy shared map as
`snapshots i`. -/
def buildTraces (svc : String → Except String Int) (now : Int) :
    List String → (Nat → Store) → List (List BatchEvent)
  | [], _ => []
  | code :: rest, snapshots =>
    goroutineTrace svc (snapshots 0) code now
      :: buildTraces svc now rest (fun i => snapshots (i + 1))

/-- `GetPricesFor` from cache.go lines 73-138: spawn one goroutine per item
code, then run the coordinator loop over the sends delivered in `schedule`
order. -/
def GetPricesFor (svc : String → Except String Int) (maxAge : Int)
    (store : Store) (itemCodes : List String) (snapshots : Nat → Store)
    (schedule : List Nat) (now : Int) : BatchResult :=
  runBatch itemCodes.length maxAge now (buildTraces svc now itemCodes snapshots)
    schedule [] store

/-! ## Store lemmas -/

theorem Store.find_insert_self (s : Store) (k : String) (v : ItemPriceCache) :
    Store.find (Store.insert s k v) k = some v := by
  induction s with
  | nil => simp [Store.insert, Store.find]
  | cons p rest ih =>
    obtain ⟨k', v'⟩ := p
    by_cases h : k' = k
    · simp [Store.insert, h, Store.find]
    · simp [Store.insert, h, Store.find, ih]

theorem Store.find_insert_ne (s : Store) (k k' : String) (v : ItemPriceCache)
    (h : k ≠ k') : Store.find (Store.insert s k v) k' = Store.find s k' := by
  induction s with
  | nil => simp [Store.insert, Store.find, h]
  | cons p rest ih =>
    obtain ⟨k0, v0⟩ := p
    by_cases h0 : k0 = k
    · simp [Store.insert, h0, Store.find, h]
    · simp [Store.insert, h0, Store.find, ih]

theorem Store.find_insert_isSome (s : Store) (k k' : String) (v : ItemPriceCache)
    (h : (Store.find s k').isSome) :
    (Store.find (Store.insert s k v) k').isSome := by
  by_cases hk : k = k'
  · subst hk; simp [Store.find_insert_self]
  · rwa [Store.find_insert_ne s k k' v hk]

/-! ## Counting the deliverable result sends of goroutine traces

A goroutine's sends on `ch` that can be received before any send on `errCh`
from the same goroutine are exactly its leading result events. -/

/-- `true` for a send on `ch` (a result), `false` for a send on `errCh`. -/
def BatchEvent.isResultSend : BatchEvent → Bool
  | .ok _ _ => true
  | .err _ => false

/-- Number of result sends a goroutine can deliver before its first error
send (if any). -/
def leadingOks (t : List BatchEvent) : Nat :=
  (t.takeWhile BatchEvent.isResultSend).length

/-- Total deliverable-before-error result sends across all goroutines. -/
def totalLeadingOks (traces : List (List BatchEvent)) : Nat :=
  (traces.map leadingOks).sum

theorem totalLeadingOks_set (traces : List (List BatchEvent)) (i : Nat)
    (t tr : List BatchEvent) (h : traces[i]? = some t) :
    totalLeadingOks (traces.set i tr) + leadingOks t
      = totalLeadingOks traces + leadingOks tr := by
  induction traces generalizing i with
  | nil => simp at h
  | cons x xs ih =>
    cases i with
    | zero =>
      simp only [List.getElem?_cons_zero] at h
      injection h with h; subst h
      simp [totalLeadingOks, List.set]
      omega
    | succ j =>
      simp only [List.getElem?_cons_succ] at h
      have := ih j h
      simp only [totalLeadingOks, List.set, List.map, List.sum_cons] at *
      omega

theorem leadingOks_goroutineTrace_le_one (svc : String → Except String Int)
    (snapshot : Store) (code : String) (now : Int) :
    leadingOks (goroutineTrace svc snapshot code now) ≤ 1 := by
  unfold goroutineTrace
  cases hf : Store.find snapshot code with
  | none =>
    cases hs : svc code with
    | ok p => simp [leadingOks, List.takeWhile, BatchEvent.isResultSend]
    | error e => simp [leadingOks, List.takeWhile, BatchEvent.isResultSend]
  | some item =>
    by_cases he : item.IsExpired now
    · cases hs : svc code with
      | ok p => simp [he, leadingOks, List.takeWhile, BatchEvent.isResultSend]
      | error e => simp [he, leadingOks, List.takeWhile, BatchEvent.isResultSend]
    · simp [he, leadingOks, List.takeWhile, BatchEvent.isResultSend]

theorem goroutineTrace_of_fetch_failure (svc : String → Except String Int)
    (snapshot : Store) (code : String) (now : Int) (e : String)
    (hmiss : cacheMiss snapshot code now = true) (herr : svc code = .error e) :
    goroutineTrace svc snapshot code now = [.err e, .ok code 0] := by
  unfold goroutineTrace
  unfold cacheMiss at hmiss
  cases hf : Store.find snapshot code with
  | none => simp [herr]
  | some item =>
    rw [hf] at hmiss
    simp only [] at hmiss
    simp [hmiss, herr]

theorem buildTraces_length (svc : String → Except String Int) (now : Int)
    (codes : List String) (snapshots : Nat → Store) :
    (buildTraces svc now codes snapshots).length = codes.length := by
  induction codes generalizing snapshots with
  | nil => simp [buildTraces]
  | cons c rest ih => simp [buildTraces, ih]

theorem buildTraces_get? (svc : String → Except String Int) (now : Int)
    (codes : List String) (snapshots : Nat → Store) (i : Nat) (code : String)
    (h : codes[i]? = some code) :
    (buildTraces svc now codes snapshots)[i]?
      = some (goroutineTrace svc (snapshots i) code now) := by
  induction codes generalizing snapshots i with
  | nil => simp at h
  | cons c rest ih =>
    cases i with
    | zero =>
      simp only [List.getElem?_cons_zero] at h
      injection h with h; subst h
      simp [buildTraces]
    | succ j =>
      simp only [List.getElem?_cons_succ] at h
      simp only [buildTraces, List.getElem?_cons_succ]
      exact ih (fun i => snapshots (i + 1)) j h

theorem buildTraces_leadingOks_le_one (svc : String → Except String Int)
    (now : Int) (codes : List String) (snapshots : Nat → Store) :
    ∀ t ∈ buildTraces svc now codes snapshots, leadingOks t ≤ 1 := by
  induction codes generalizing snapshots with
  | nil => simp [buildTraces]
  | cons c rest ih =>
    intro t ht
    simp only [buildTraces, List.mem_cons] at ht
    rcases ht with h | h
    · subst h; exact leadingOks_goroutineTrace_le_one svc (snapshots 0) c now
    · exact ih (fun i => snapshots (i + 1)) t h

theorem totalLeadingOks_le_length (l : List (List BatchEvent))
    (hle : ∀ t ∈ l, leadingOks t ≤ 1) : totalLeadingOks l ≤ l.length := by
  induction l with
  | nil => simp [totalLeadingOks]
  | cons y ys ih =>
    have hy := hle y (by simp)
    have hys := ih (fun u hu => hle u (by simp [hu]))
    simp only [totalLeadingOks, List.map, List.sum_cons, List.length_cons] at *
    omega

theorem totalLeadingOks_lt_length (traces : List (List BatchEvent))
    (hle : ∀ t ∈ traces, leadingOks t ≤ 1) (i : Nat) (t : List BatchEvent)
    (hget : traces[i]? = some t) (hzero : leadingOks t = 0) :
    totalLeadingOks traces < traces.length := by
  induction traces generalizing i with
  | nil => simp at hget
  | cons x xs ih =>
    cases i with
    | zero =>
      simp only [List.getElem?_cons_zero] at hget
      injection hget with hget; subst hget
      have hxs : totalLeadingOks xs ≤ xs.length :=
        totalLeadingOks_le_length xs (fun u hu => hle u (by simp [hu]))
      simp only [totalLeadingOks, List.map, List.sum_cons, List.length_cons] at hxs ⊢
      omega
    | succ j =>
      simp only [List.getElem?_cons_succ] at hget
      have hxs : ∀ u ∈ xs, leadingOks u ≤ 1 := fun u hu => hle u (by simp [hu])
      have := ih hxs j hget
      have hx := hle x (by simp)
      simp only [totalLeadingOks, List.map, List.sum_cons, List.length_cons] at *
      omega

/-! ## Coordinator lemmas -/

/-- With no goroutines the coordinator loop never reaches a `return`
statement: every `select` blocks. -/
theorem runBatch_nil_traces (n : Nat) (maxAge now : Int) (sched : List Nat)
    (results : List Int) (store : Store) :
    runBatch n maxAge now [] sched results store = .deadlock store [] := by
  induction sched with
  | nil => simp [runBatch]
  | cons i rest ih => simpa [runBatch] using ih

theorem leadingOks_cons_ok (code : String) (price : Int) (tr : List BatchEvent) :
    leadingOks (.ok code price :: tr) = leadingOks tr + 1 := by
  simp [leadingOks, List.takeWhile, BatchEvent.isResultSend]

/-- As long as fewer than `n` result sends can ever be delivered before an
error send, the coordinator cannot reach the success return. -/
theorem runBatch_not_ok (n : Nat) (maxAge now : Int) :
    ∀ (sched : List Nat) (traces : List (List BatchEvent)) (results : List Int)
      (store : Store),
    results.length + totalLeadingOks traces < n →
    (runBatch n maxAge now traces sched results store).isOk = false := by
  intro sched
  induction sched with
  | nil => intro traces results store _; simp [runBatch, BatchResult.isOk]
  | cons i rest ih =>
    intro traces results store h
    cases hg : traces[i]? with
    | none => simpa [runBatch, hg] using ih traces results store h
    | some t =>
      cases t with
      | nil => simpa [runBatch, hg] using ih traces results store h
      | cons ev tr =>
        cases ev with
        | err e => simp [runBatch, hg, BatchResult.isOk]
        | ok code price =>
          have hset := totalLeadingOks_set traces i (.ok code price :: tr) tr hg
          have hlead := leadingOks_cons_ok code price tr
          have hne : ¬ (results.length + 1 = n) := by omega
          have hlt : (results ++ [price]).length
              + totalLeadingOks (traces.set i tr) < n := by
            simp only [List.length_append, List.length_cons, List.length_nil]
            omega
          have hrec := ih (traces.set i tr) (results ++ [price])
            (Store.insert store code ⟨price, planExpiration now maxAge⟩) hlt
          simpa [runBatch, hg, hne] using hrec

/-- Every store write of the coordinator loop is an insert, so a key present
when the loop starts is present in the final store. -/
theorem runBatch_finalStore_mono (n : Nat) (maxAge now : Int) :
    ∀ (sched : List Nat) (traces : List (List BatchEvent)) (results : List Int)
      (store : Store) (k : String),
    (Store.find store k).isSome →
    (Store.find (runBatch n maxAge now traces sched results store).finalStore k).isSome := by
  intro sched
  induction sched with
  | nil => intro traces results store k h; simpa [runBatch, BatchResult.finalStore]
  | cons i rest ih =>
    intro traces results store k h
    cases hg : traces[i]? with
    | none => simpa [runBatch, hg] using ih traces results store k h
    | some t =>
      cases t with
      | nil => simpa [runBatch, hg] using ih traces results store k h
      | cons ev tr =>
        cases ev with
        | err e => simpa [runBatch, hg, BatchResult.finalStore] using h
        | ok code price =>
          have hins := Store.find_insert_isSome store code k
            ⟨price, planExpiration now maxAge⟩ h
          by_cases hn : results.length + 1 = n
          · simpa [runBatch, hg, hn, BatchResult.finalStore] using hins
          · have hrec := ih (traces.set i tr) (results ++ [price])
              (Store.insert store code ⟨price, planExpiration now maxAge⟩) k hins
            simpa [runBatch, hg, hn] using hrec

/-! ## `GetPriceFor` case lemmas -/

theorem getPriceFor_hit (svc : String → Except String Int) (maxAge : Int)
    (store : Store) (code : String) (now : Int) (item : ItemPriceCache)
    (hfind : Store.find store code = some item)
    (hfresh : item.IsExpired now = false) :
    GetPriceFor svc maxAge store code now = ⟨item.Price, none, store, false⟩ := by
  unfold GetPriceFor
  rw [hfind]
  simp [hfresh]

theorem getPriceFor_miss_ok (svc : String → Except String Int) (maxAge : Int)
    (store : Store) (code : String) (now : Int) (price : Int)
    (hmiss : cacheMiss store code now = true) (hok : svc code = .ok price) :
    GetPriceFor svc maxAge store code now
      = ⟨price, none,
          Store.insert store code ⟨price, planExpiration now maxAge⟩, true⟩ := by
  unfold GetPriceFor
  unfold cacheMiss at hmiss
  cases hf : Store.find store code with
  | none => simp [hok]
  | some item =>
    rw [hf] at hmiss
    simp only [] at hmiss
    simp [hmiss, hok]

theorem getPriceFor_miss_err (svc : String → Except String Int) (maxAge : Int)
    (store : Store) (code : String) (now : Int) (e : String)
    (hmiss : cacheMiss store code now = true) (herr : svc code = .error e) :
    GetPriceFor svc maxAge store code now
      = ⟨0, some (wrapServiceError e), store, true⟩ := by
  unfold GetPriceFor
  unfold cacheMiss at hmiss
  cases hf : Store.find store code with
  | none => simp [herr]
  | some item =>
    rw [hf] at hmiss
    simp only [] at hmiss
    simp [hmiss, herr]

theorem Store.find_erase_self (s : Store) (k : String) :
    Store.find (Store.erase s k) k = none := by
  induction s with
  | nil => simp [Store.erase, Store.find]
  | cons p rest ih =>
    obtain ⟨k', v'⟩ := p
    by_cases h : k' = k
    · simpa [Store.erase, h, List.filter] using ih
    · simpa [Store.erase, h, List.filter, Store.find] using ih

/-! ## Concrete collaborators used in closed statements -/

/-- Collaborator answering 1 for "a" and 2 for "b", failing otherwise. -/
def svcAB : String → Except String Int
  | "a" => .ok 1
  | "b" => .ok 2
  | _ => .error "unknown"

/-- Collaborator that fails every lookup with message "boom". -/
def svcBoom : String → Except String Int := fun _ => .error "boom"

/-! ## Claims -/

/-- Claim C1: the spec requires the batch result sequence to follow input key
order regardless of completion order. The code appends prices in arrival
order (cache.go line 126): with input keys ["a", "b"], value(a) = 1,
value(b) = 2 and a schedule on which the goroutine for "b" delivers first,
the call succeeds with [2, 1] instead of [value(a), value(b)] = [1, 2]. -/
theorem getPricesFor_returns_arrival_order :
    GetPricesFor svcAB 10 [] ["a", "b"] (fun _ => []) [1, 0] 0
      = .ok [2, 1] [("b", ⟨2, 10⟩), ("a", ⟨1, 10⟩)] [[], []]
    ∧ [(2 : Int), 1] ≠ [1, 2] := by
  exact ⟨by decide, by decide⟩

/-- Claim C2 (confirmed): if any per-key collaborator fetch in a batch fails,
`GetPricesFor` can never reach its success return — under every delivery
schedule the outcome is the error return (carrying no values) or blocking,
never a partial value sequence; and the schedule that delivers the failing
goroutine's error send first returns exactly that error with no values. -/
theorem getPricesFor_fetch_failure_never_succeeds
    (svc : String → Except String Int) (maxAge : Int) (store : Store)
    (itemCodes : List String) (snapshots : Nat → Store) (schedule : List Nat)
    (now : Int) (i : Nat) (code e : String)
    (hcode : itemCodes[i]? = some code)
    (hmiss : cacheMiss (snapshots i) code now = true)
    (herr : svc code = .error e) :
    (GetPricesFor svc maxAge store itemCodes snapshots schedule now).isOk = false
    ∧ GetPricesFor svc maxAge store itemCodes snapshots [i] now
        = .error e store
            ((buildTraces svc now itemCodes snapshots).set i [.ok code 0]) := by
  have htr := buildTraces_get? svc now itemCodes snapshots i code hcode
  have htrace := goroutineTrace_of_fetch_failure svc (snapshots i) code now e hmiss herr
  rw [htrace] at htr
  constructor
  · unfold GetPricesFor
    apply runBatch_not_ok
    have hle := buildTraces_leadingOks_le_one svc now itemCodes snapshots
    have hzero : leadingOks [BatchEvent.err e, BatchEvent.ok code 0] = 0 := by
      simp [leadingOks, List.takeWhile, BatchEvent.isResultSend]
    have hlt := totalLeadingOks_lt_length _ hle i _ htr hzero
    rw [buildTraces_length] at hlt
    simpa using hlt
  · unfold GetPricesFor
    simp [runBatch, htr]

/-- Closed instance of the C2 theorem: the one-key batch ["A"] with an
always-failing collaborator, on an arbitrary schedule and on the error-first
schedule. -/
theorem getPricesFor_fetch_failure_never_succeeds_witness :
    (GetPricesFor svcBoom 10 [] ["A"] (fun _ => []) [0, 1, 0] 0).isOk = false
    ∧ GetPricesFor svcBoom 10 [] ["A"] (fun _ => []) [0] 0
        = .error "boom" []
            ((buildTraces svcBoom 0 ["A"] (fun _ => [])).set 0 [.ok "A" 0]) :=
  getPricesFor_fetch_failure_never_succeeds svcBoom 10 [] ["A"] (fun _ => [])
    [0, 1, 0] 0 0 "A" "boom" (by rfl) (by rfl) (by rfl)

/-- Claim C3: the spec says a zero-key batch returns an empty sequence and no
error. In the code the length check sits behind a channel receive, so with no
goroutines the coordinator blocks in `select` forever: under every schedule
the call deadlocks and never returns anything. -/
theorem getPricesFor_empty_batch_never_returns
    (svc : String → Except String Int) (maxAge : Int) (store : Store)
    (snapshots : Nat → Store) (schedule : List Nat) (now : Int) :
    GetPricesFor svc maxAge store [] snapshots schedule now
      = .deadlock store [] := by
  unfold GetPricesFor
  simp only [buildTraces, List.length_nil]
  exact runBatch_nil_traces 0 maxAge now schedule [] store

/-- Claim C4 (confirmed): a present, unexpired entry is served from the store
with no collaborator call and no store change; and a value fetched at `now`
is returned identically, without a second collaborator invocation, by a
re-request at any `t1` before `now + maxAge` — whatever the collaborator
would answer then. -/
theorem getPriceFor_fresh_hit_no_refetch :
    (∀ (svc : String → Except String Int) (maxAge : Int) (store : Store)
       (code : String) (now : Int) (item : ItemPriceCache),
       Store.find store code = some item → item.IsExpired now = false →
       GetPriceFor svc maxAge store code now = ⟨item.Price, none, store, false⟩)
    ∧ (∀ (svc svc2 : String → Except String Int) (maxAge : Int) (store : Store)
         (code : String) (now t1 price : Int),
         cacheMiss store code now = true → svc code = .ok price →
         t1 < now + maxAge →
         (GetPriceFor svc maxAge store code now).value = price
         ∧ (GetPriceFor svc maxAge store code now).serviceCalled = true
         ∧ GetPriceFor svc2 maxAge (GetPriceFor svc maxAge store code now).store code t1
             = ⟨price, none, (GetPriceFor svc maxAge store code now).store, false⟩) := by
  constructor
  · intro svc maxAge store code now item hfind hfresh
    exact getPriceFor_hit svc maxAge store code now item hfind hfresh
  · intro svc svc2 maxAge store code now t1 price hmiss hok ht1
    have h1 := getPriceFor_miss_ok svc maxAge store code now price hmiss hok
    rw [h1]
    refine ⟨rfl, rfl, ?_⟩
    have hfind := Store.find_insert_self store code ⟨price, planExpiration now maxAge⟩
    have hfresh : (⟨price, planExpiration now maxAge⟩ : ItemPriceCache).IsExpired t1
        = false := by
      simp [ItemPriceCache.IsExpired, planExpiration]
      omega
    exact getPriceFor_hit svc2 maxAge _ code t1 _ hfind hfresh

/-- Closed instance of the C4 theorem: a fresh hit on ("a", price 7, expiry
5) at time 3, and fetch-then-re-request of "a" at times 0 and 5 with
maxAge 10. -/
theorem getPriceFor_fresh_hit_no_refetch_witness :
    GetPriceFor svcBoom 10 [("a", ⟨7, 5⟩)] "a" 3 = ⟨7, none, [("a", ⟨7, 5⟩)], false⟩
    ∧ ((GetPriceFor svcAB 10 [] "a" 0).value = 1
       ∧ (GetPriceFor svcAB 10 [] "a" 0).serviceCalled = true
       ∧ GetPriceFor svcBoom 10 (GetPriceFor svcAB 10 [] "a" 0).store "a" 5
           = ⟨1, none, (GetPriceFor svcAB 10 [] "a" 0).store, false⟩) :=
  ⟨getPriceFor_fresh_hit_no_refetch.1 svcBoom 10 [("a", ⟨7, 5⟩)] "a" 3 ⟨7, 5⟩
      (by rfl) (by decide),
   getPriceFor_fresh_hit_no_refetch.2 svcAB svcBoom 10 [] "a" 0 5 1
      (by rfl) (by rfl) (by decide)⟩

/-- Claim C5 fails on two counts. Boundary: at `now = expiresAt` the entry is
NOT expired (`IsExpired` uses strict `>`), so the stored value is served from
cache although `now < expiresAt` is false. Batch hit refresh: a fetch at time
0 with maxAge 10 stores expiration 10, but a batch call at time 5 that is a
pure cache hit (no collaborator fetch) rewrites the entry with expiration 15,
which is not last-fetch-time + maxAge = 10. -/
theorem store_invariant_cex :
    (ItemPriceCache.IsExpired ⟨10, 100⟩ 100 = false ∧ ¬ ((100 : Int) < 100))
    ∧ (GetPriceFor svcAB 10 [] "a" 0 = ⟨1, none, [("a", ⟨1, 10⟩)], true⟩
       ∧ GetPricesFor svcAB 10 [("a", ⟨1, 10⟩)] ["a"]
           (fun _ => [("a", ⟨1, 10⟩)]) [0] 5
           = .ok [1] [("a", ⟨1, 15⟩)] [[]]
       ∧ ((15 : Int) ≠ planExpiration 0 10)) := by
  exact ⟨⟨by decide, by decide⟩, by decide, by decide, by decide⟩

/-- Claim C5 amended: every store write sets the expiration to the instant of
that write plus maxAge — for single-item retrieval that is the fetch time,
but the batch coordinator also rewrites cache-hit entries at receive time —
and a stored value is served from cache iff `now ≤ expiresAt` (the boundary
instant included), not iff `now < expiresAt`. -/
theorem store_expiration_write_time :
    (∀ (item : ItemPriceCache) (now : Int),
       item.IsExpired now = false ↔ now ≤ item.Expiration)
    ∧ (∀ (svc : String → Except String Int) (maxAge : Int) (store : Store)
         (code : String) (now price : Int),
         cacheMiss store code now = true → svc code = .ok price →
         Store.find (GetPriceFor svc maxAge store code now).store code
           = some ⟨price, planExpiration now maxAge⟩)
    ∧ (∀ (n : Nat) (maxAge now : Int) (traces : List (List BatchEvent))
         (i : Nat) (rest : List Nat) (results : List Int) (store : Store)
         (code : String) (price : Int) (tr : List BatchEvent),
         traces[i]? = some (.ok code price :: tr) →
         results.length + 1 = n →
         runBatch n maxAge now traces (i :: rest) results store
           = .ok (results ++ [price])
               (Store.insert store code ⟨price, planExpiration now maxAge⟩)
               (traces.set i tr)) := by
  refine ⟨?_, ?_, ?_⟩
  · intro item now
    simp [ItemPriceCache.IsExpired, not_lt]
  · intro svc maxAge store code now price hmiss hok
    rw [getPriceFor_miss_ok svc maxAge store code now price hmiss hok]
    exact Store.find_insert_self store code ⟨price, planExpiration now maxAge⟩
  · intro n maxAge now traces i rest results store code price tr hg hn
    simp [runBatch, hg, hn]

/-- Closed instance of the C5 amended theorem: boundary check at expiry 100,
the write of a fetch for "a" at time 0, and the coordinator's write of a
cache-hit result for "a" received at time 5 with maxAge 10. -/
theorem store_expiration_write_time_witness :
    ((⟨10, 100⟩ : ItemPriceCache).IsExpired 100 = false ↔ (100 : Int) ≤ 100)
    ∧ Store.find (GetPriceFor svcAB 10 [] "a" 0).store "a"
        = some ⟨1, planExpiration 0 10⟩
    ∧ runBatch 1 10 5 [[.ok "a" 1]] [0] [] [("a", ⟨1, 10⟩)]
        = .ok ([] ++ [1])
            (Store.insert [("a", ⟨1, 10⟩)] "a" ⟨1, planExpiration 5 10⟩)
            ([[.ok "a" 1]].set 0 []) :=
  ⟨store_expiration_write_time.1 ⟨10, 100⟩ 100,
   store_expiration_write_time.2.1 svcAB 10 [] "a" 0 1 (by rfl) (by rfl),
   store_expiration_write_time.2.2 1 10 5 [[.ok "a" 1]] 0 [] [] [("a", ⟨1, 10⟩)]
     "a" 1 [] (by rfl) (by rfl)⟩

/-- Claim C6 (confirmed): whatever the store state, when the collaborator's
answer for the key is a failure, `GetPriceFor` leaves the store exactly as it
was: the write at cache.go line 63 is only reached after a successful fetch. -/
theorem getPriceFor_failure_store_unchanged
    (svc : String → Except String Int) (maxAge : Int) (store : Store)
    (code : String) (now : Int) (e : String) (herr : svc code = .error e) :
    (GetPriceFor svc maxAge store code now).store = store := by
  unfold GetPriceFor
  cases hf : Store.find store code with
  | none => simp [herr]
  | some item =>
    by_cases hexp : item.IsExpired now
    · simp [hexp, herr]
    · simp [hexp]

/-- Closed instance of the C6 theorem: failing refetch of the expired entry
("a", {7, 5}) at time 99 leaves the store untouched. -/
theorem getPriceFor_failure_store_unchanged_witness :
    (GetPriceFor svcBoom 10 [("a", ⟨7, 5⟩)] "a" 99).store = [("a", ⟨7, 5⟩)] :=
  getPriceFor_failure_store_unchanged svcBoom 10 [("a", ⟨7, 5⟩)] "a" 99 "boom"
    (by rfl)

/-- Claim C7 fails: for key "A" with collaborator failure "boom" the returned
error message is exactly "getting item from service : boom"; the failing key
"A" does not occur anywhere in it. -/
theorem wrapped_error_omits_key_cex :
    (GetPriceFor svcBoom 10 [] "A" 0).error
      = some "getting item from service : boom"
    ∧ strContains "getting item from service : boom" "A" = false := by
  exact ⟨by decide, by decide⟩

/-- Claim C7 amended: the collaborator failure is wrapped, but only with the
fixed context "getting item from service : " followed by the collaborator's
error text; the failing key is not part of the wrapping. -/
theorem wrapped_error_fixed_context
    (svc : String → Except String Int) (maxAge : Int) (store : Store)
    (code : String) (now : Int) (e : String)
    (hmiss : cacheMiss store code now = true) (herr : svc code = .error e) :
    (GetPriceFor svc maxAge store code now).error
      = some ("getting item from service : " ++ e) := by
  rw [getPriceFor_miss_err svc maxAge store code now e hmiss herr]
  rfl

/-- Closed instance of the C7 amended theorem. -/
theorem wrapped_error_fixed_context_witness :
    (GetPriceFor svcBoom 10 [] "A" 0).error
      = some ("getting item from service : " ++ "boom") :=
  wrapped_error_fixed_context svcBoom 10 [] "A" 0 "boom" (by rfl) (by rfl)

/-- Claim C8 fails on the part_000 variant that the claim cites: its
`GetPriceFor` deletes an expired entry before refetching, so when the store
holds the expired entry ("A", {5, 10}) at time 20 and the refetch fails, the
call errors out and "A" is no longer in the store. -/
theorem part000_expired_key_removed_cex :
    Store.find [("A", ⟨5, 10⟩)] "A" = some ⟨5, 10⟩
    ∧ (Part000.GetPriceFor svcBoom 10 [("A", ⟨5, 10⟩)] "A" 20).store = []
    ∧ Store.find (Part000.GetPriceFor svcBoom 10 [("A", ⟨5, 10⟩)] "A" 20).store "A"
        = none := by
  exact ⟨by decide, by decide, by decide⟩

/-- Claim C8 amended: for cache.go's operations the store's key set does grow
monotonically — neither `GetPriceFor` nor the batch coordinator loop ever
removes a key — but the part_000 variant of `GetPriceFor` deletes an expired
entry before refetching, so there a key is removed from the store whenever
its entry has expired and the refetch fails. -/
theorem store_keys_monotone :
    (∀ (svc : String → Except String Int) (maxAge : Int) (store : Store)
       (code : String) (now : Int) (k : String),
       (Store.find store k).isSome →
       (Store.find (GetPriceFor svc maxAge store code now).store k).isSome)
    ∧ (∀ (n : Nat) (maxAge now : Int) (sched : List Nat)
         (traces : List (List BatchEvent)) (results : List Int) (store : Store)
         (k : String),
         (Store.find store k).isSome →
         (Store.find (runBatch n maxAge now traces sched results store).finalStore
           k).isSome)
    ∧ (∀ (svc : String → Except String Int) (maxAge : Int) (store : Store)
         (code : String) (now : Int) (item : ItemPriceCache) (e : String),
         Store.find store code = some item → item.IsExpired now = true →
         svc code = .error e →
         Store.find (Part000.GetPriceFor svc maxAge store code now).store code
           = none) := by
  refine ⟨?_, ?_, ?_⟩
  · intro svc maxAge store code now k h
    unfold GetPriceFor
    cases hf : Store.find store code with
    | none =>
      cases hs : svc code with
      | error e => simpa using h
      | ok price =>
        simpa using Store.find_insert_isSome store code k
          ⟨price, planExpiration now maxAge⟩ h
    | some item =>
      by_cases hexp : item.IsExpired now
      · cases hs : svc code with
        | error e => simpa [hexp] using h
        | ok price =>
          simpa [hexp] using Store.find_insert_isSome store code k
            ⟨price, planExpiration now maxAge⟩ h
      · simpa [hexp] using h
  · intro n maxAge now
    exact runBatch_finalStore_mono n maxAge now
  · intro svc maxAge store code now item e hf hexp herr
    unfold Part000.GetPriceFor
    rw [hf]
    simp [hexp, herr, Store.find_erase_self]

/-- Closed instance of the C8 amended theorem. -/
theorem store_keys_monotone_witness :
    (Store.find (GetPriceFor svcBoom 10 [("a", ⟨7, 5⟩)] "b" 3).store "a").isSome
    ∧ (Store.find (runBatch 1 10 0 [[.ok "b" 2]] [0] []
         [("a", ⟨7, 5⟩)]).finalStore "a").isSome
    ∧ Store.find (Part000.GetPriceFor svcBoom 10 [("A", ⟨5, 10⟩)] "A" 20).store "A"
        = none :=
  ⟨store_keys_monotone.1 svcBoom 10 [("a", ⟨7, 5⟩)] "b" 3 "a" (by decide),
   store_keys_monotone.2.1 1 10 0 [0] [[.ok "b" 2]] [] [("a", ⟨7, 5⟩)] "a"
     (by decide),
   store_keys_monotone.2.2 svcBoom 10 [("A", ⟨5, 10⟩)] "A" 20 ⟨5, 10⟩ "boom"
     (by rfl) (by decide) (by rfl)⟩

/-- Claim C9: the spec requires a task completing after the first error to
deliver its sends without panicking. In cache.go both channels are closed by
`defer` when the coordinator returns; a failing goroutine sends its error,
the coordinator returns, and the goroutine's follow-up send
`ch <- {code, price}` then targets a closed channel — a Go panic. Concretely:
batch ["A"] with collaborator failure "boom". -/
theorem late_send_hits_closed_channel :
    GetPricesFor svcBoom 10 [] ["A"] (fun _ => []) [0] 0
      = .error "boom" [] [[.ok "A" 0]]
    ∧ (GetPricesFor svcBoom 10 [] ["A"] (fun _ => []) [0] 0).sendOnClosedChannel
        = true := by
  exact ⟨by decide, by decide⟩

/-- Claim C10 (confirmed): when the fetch happens (key absent or expired) and
the collaborator fails, `GetPriceFor` returns the zero value 0 together with
the wrapped error — never the stale cached value. -/
theorem getPriceFor_failure_returns_zero
    (svc : String → Except String Int) (maxAge : Int) (store : Store)
    (code : String) (now : Int) (e : String)
    (hmiss : cacheMiss store code now = true) (herr : svc code = .error e) :
    (GetPriceFor svc maxAge store code now).value = 0
    ∧ (GetPriceFor svc maxAge store code now).error = some (wrapServiceError e) := by
  rw [getPriceFor_miss_err svc maxAge store code now e hmiss herr]
  exact ⟨rfl, rfl⟩

/-- Closed instance of the C10 theorem: expired entry ("A", {5, 10}) at time
20 with a failing collaborator yields 0, not the stale 5. -/
theorem getPriceFor_failure_returns_zero_witness :
    (GetPriceFor svcBoom 10 [("A", ⟨5, 10⟩)] "A" 20).value = 0
    ∧ (GetPriceFor svcBoom 10 [("A", ⟨5, 10⟩)] "A" 20).error
        = some (wrapServiceError "boom") :=
  getPriceFor_failure_returns_zero svcBoom 10 [("A", ⟨5, 10⟩)] "A" 20 "boom"
    (by decide) (by rfl)
